import Mathlib

/-!
Verification of the calcrs expression-evaluator pipeline: a shallow embedding
of src/lexer.rs, src/parser.rs and src/evaluator.rs, followed by theorems
about the lexer, the recursive-descent parser and the tree evaluator.

Modelling conventions:
* Numeric payloads are exact rationals.  Every numeral and every arithmetic
  result exercised by the theorems below is exactly representable as an IEEE
  double, so the idealisation agrees with the Rust `f64` values there.
* The transcendental and power functions that the evaluator takes from the
  Rust float library are outside this repository; evaluation is parameterised
  over an arbitrary interpretation of them (`FloatOps`).
* The Rust lexer aborts the process (a Rust panic) on bad input instead of
  returning an error; the abort sites are modelled as dedicated constructors
  of `LexResult`.
* The recursive functions of the lexer and parser carry an explicit fuel
  argument so that they are structurally recursive and compute inside the
  kernel.  The fuel supplied at the entry points strictly exceeds the number
  of steps any run can take (each recursive descent consumes input), so the
  out-of-fuel branches are unreachable; no theorem depends on their value.
-/

namespace Calcrs

/-- Tokens produced by the lexer (src/lexer.rs, `enum Token`).  The numeric
payload of `Number` is the exact rational value of the decimal numeral. -/
inductive Token where
  | Number (val : ℚ)
  | Plus
  | Minus
  | Multiply
  | Divide
  | LeftParen
  | RightParen
  | Cos
  | Acos
  | Sin
  | Asin
  | Tan
  | Atan
  | Sqrt
  | Pow
  | Comma
  deriving DecidableEq

/-- Numeric value of one decimal digit character. -/
def digitVal (c : Char) : ℕ := c.toNat - 48

/-- Value of a digit string, most significant digit first. -/
def digitsVal (l : List Char) : ℕ := l.foldl (fun a c => 10 * a + digitVal c) 0

/-- Modelled from the spec and the Rust standard library: the lexer hands the
accumulated numeral (a leading digit followed by digits and dots,
src/lexer.rs line 65) to `str::parse::<f64>`.  Such a string is a valid float
literal exactly when it contains at most one dot; a second dot makes the
conversion fail, which the lexer turns into a process abort via `unwrap`.
The value is modelled as the exact rational value of the decimal numeral
(the claims below only exercise numerals that are exact in `f64`).  The
dot-free case is split out so that integer numerals normalise to the plain
natural-number cast. -/
def parseNumber (l : List Char) : Option ℚ :=
  if l.count '.' ≤ 1 then
    let intPart := l.takeWhile (fun c => c ≠ '.')
    let fracPart := (l.dropWhile (fun c => c ≠ '.')).drop 1
    if fracPart.isEmpty then some ((digitsVal intPart : ℕ) : ℚ)
    else some (((digitsVal intPart : ℕ) : ℚ) +
      ((digitsVal fracPart : ℕ) : ℚ) / (10 : ℚ) ^ fracPart.length)
  else none

/-- Result of running the lexer.  `tokenize` in src/lexer.rs returns a plain
`Vec<Token>` and aborts the whole process on bad input; the three `panic…`
constructors model the three abort sites (unknown identifier, invalid
character, and a numeral rejected by the float conversion), carrying the data
the Rust panic message carries.  `outOfFuel` is the unreachable fuel-exhaustion
branch of the embedding (see the module comment). -/
inductive LexResult where
  | ok (tokens : List Token)
  | panicUnknownIdentifier (identifier : String)
  | panicInvalidCharacter (c : Char)
  | panicMalformedNumber (text : String)
  | outOfFuel
  deriving DecidableEq

/-- The case-sensitive match of an alphabetic run against the fixed function
vocabulary (src/lexer.rs lines 84-94). -/
def identToken (s : String) : Option Token :=
  if s = "cos" then some Token.Cos
  else if s = "sin" then some Token.Sin
  else if s = "tan" then some Token.Tan
  else if s = "acos" then some Token.Acos
  else if s = "asin" then some Token.Asin
  else if s = "atan" then some Token.Atan
  else if s = "sqrt" then some Token.Sqrt
  else if s = "pow" then some Token.Pow
  else none

/-- Is this character accumulated into a numeral after its first digit?
Rust: `next.is_digit(10) || next == '.'` (src/lexer.rs line 59). -/
def isNumberChar (c : Char) : Bool := c.isDigit || c = '.'

/-- The scanning loop of `tokenize` (src/lexer.rs lines 54-99), one step per
consumed character run.  `acc` holds the tokens produced so far in reverse
order, matching the Rust vector push.  Identifier continuation uses
`Char.isAlpha` for Rust's `is_alphabetic`; the two agree on ASCII input,
which is all the spec admits. -/
def tokenizeGo : ℕ → List Char → List Token → LexResult
  | 0, _, _ => LexResult.outOfFuel
  | _ + 1, [], acc => LexResult.ok acc.reverse
  | fuel + 1, c :: cs, acc =>
    if c.isDigit then
      match parseNumber (c :: cs.takeWhile isNumberChar) with
      | some v => tokenizeGo fuel (cs.dropWhile isNumberChar) (Token.Number v :: acc)
      | none => LexResult.panicMalformedNumber (String.mk (c :: cs.takeWhile isNumberChar))
    else if c = '+' then tokenizeGo fuel cs (Token.Plus :: acc)
    else if c = '-' then tokenizeGo fuel cs (Token.Minus :: acc)
    else if c = '*' then tokenizeGo fuel cs (Token.Multiply :: acc)
    else if c = '/' then tokenizeGo fuel cs (Token.Divide :: acc)
    else if c = '(' then tokenizeGo fuel cs (Token.LeftParen :: acc)
    else if c = ')' then tokenizeGo fuel cs (Token.RightParen :: acc)
    else if c = ',' then tokenizeGo fuel cs (Token.Comma :: acc)
    else if c.isLower then
      match identToken (String.mk (c :: cs.takeWhile Char.isAlpha)) with
      | some t => tokenizeGo fuel (cs.dropWhile Char.isAlpha) (t :: acc)
      | none => LexResult.panicUnknownIdentifier (String.mk (c :: cs.takeWhile Char.isAlpha))
    else if c = ' ' then tokenizeGo fuel cs acc
    else LexResult.panicInvalidCharacter c

/-- src/lexer.rs `tokenize`: left-to-right single-pass scan.  Each loop step
consumes at least one character, so `length + 1` fuel always suffices. -/
def tokenize (input : String) : LexResult :=
  tokenizeGo (input.toList.length + 1) input.toList []

/-- The AST (src/parser.rs, `enum Expression`).  As in the source, the
operator fields reuse the lexer's `Token` type, so ill-formed operator/arity
pairings are representable. -/
inductive Expression where
  | Number (val : ℚ)
  | BinaryOp (left : Expression) (op : Token) (right : Expression)
  | UnaryOp (op : Token) (operand : Expression)
  deriving DecidableEq

/-- Error message of the unreachable fuel-exhaustion branches of the parser
embedding (see the module comment). -/
def fuelMsg : String := "Parser recursion limit exceeded"

mutual

/-- src/parser.rs `parse_expression` (lines 36-53): parse a term, then fold
further `+`/`-` terms left-associatively via `parse_expression_loop`. -/
def parse_expression : ℕ → List Token → Except String (Expression × List Token)
  | 0, _ => Except.error fuelMsg
  | fuel + 1, ts =>
    match parse_term fuel ts with
    | Except.error msg => Except.error msg
    | Except.ok (left, rest) => parse_expression_loop fuel left rest

/-- The `while let Some(token) = iter.peek()` loop inside `parse_expression`
(src/parser.rs lines 41-50): as long as the next token is `+` or `-`, consume
it, parse the next term, and extend the tree to the left. -/
def parse_expression_loop :
    ℕ → Expression → List Token → Except String (Expression × List Token)
  | 0, _, _ => Except.error fuelMsg
  | fuel + 1, left, ts =>
    match ts with
    | Token.Plus :: rest =>
      match parse_term fuel rest with
      | Except.error msg => Except.error msg
      | Except.ok (right, rest2) =>
        parse_expression_loop fuel (Expression.BinaryOp left Token.Plus right) rest2
    | Token.Minus :: rest =>
      match parse_term fuel rest with
      | Except.error msg => Except.error msg
      | Except.ok (right, rest2) =>
        parse_expression_loop fuel (Expression.BinaryOp left Token.Minus right) rest2
    | _ => Except.ok (left, ts)

/-- src/parser.rs `parse_term` (lines 55-72): parse a factor, then fold
further `*`/`/` factors left-associatively via `parse_term_loop`. -/
def parse_term : ℕ → List Token → Except String (Expression × List Token)
  | 0, _ => Except.error fuelMsg
  | fuel + 1, ts =>
    match parse_factor fuel ts with
    | Except.error msg => Except.error msg
    | Except.ok (left, rest) => parse_term_loop fuel left rest

/-- The `while let Some(token) = iter.peek()` loop inside `parse_term`
(src/parser.rs lines 60-69). -/
def parse_term_loop :
    ℕ → Expression → List Token → Except String (Expression × List Token)
  | 0, _, _ => Except.error fuelMsg
  | fuel + 1, left, ts =>
    match ts with
    | Token.Multiply :: rest =>
      match parse_factor fuel rest with
      | Except.error msg => Except.error msg
      | Except.ok (right, rest2) =>
        parse_term_loop fuel (Expression.BinaryOp left Token.Multiply right) rest2
    | Token.Divide :: rest =>
      match parse_factor fuel rest with
      | Except.error msg => Except.error msg
      | Except.ok (right, rest2) =>
        parse_term_loop fuel (Expression.BinaryOp left Token.Divide right) rest2
    | _ => Except.ok (left, ts)

/-- src/parser.rs `parse_factor` (lines 74-102): a number, a unary minus
applied to a factor, a parenthesised expression, a function call, or a
syntactic error (an unexpected token, or the end of the input). -/
def parse_factor : ℕ → List Token → Except String (Expression × List Token)
  | 0, _ => Except.error fuelMsg
  | fuel + 1, ts =>
    match ts with
    | Token.Number val :: rest => Except.ok (Expression.Number val, rest)
    | Token.Minus :: rest =>
      match parse_factor fuel rest with
      | Except.error msg => Except.error msg
      | Except.ok (e, rest2) => Except.ok (Expression.UnaryOp Token.Minus e, rest2)
    | Token.LeftParen :: rest =>
      match parse_expression fuel rest with
      | Except.error msg => Except.error msg
      | Except.ok (e, rest2) =>
        match rest2 with
        | Token.RightParen :: rest3 => Except.ok (e, rest3)
        | _ => Except.error ("Expected right parenthese")
    | Token.Cos :: rest => parse_unary_op fuel rest Token.Cos
    | Token.Acos :: rest => parse_unary_op fuel rest Token.Acos
    | Token.Sin :: rest => parse_unary_op fuel rest Token.Sin
    | Token.Asin :: rest => parse_unary_op fuel rest Token.Asin
    | Token.Tan :: rest => parse_unary_op fuel rest Token.Tan
    | Token.Atan :: rest => parse_unary_op fuel rest Token.Atan
    | Token.Sqrt :: rest => parse_unary_op fuel rest Token.Sqrt
    | Token.Pow :: rest => parse_binary_op fuel rest Token.Pow
    | _ :: _ => Except.error ("Unexpected token")
    | [] => Except.error ("Unexpected end of input")

/-- src/parser.rs `parse_unary_op` (lines 104-124).  The function token has
already been consumed; `op` is that token.  A `-` operator recurses straight
into a factor; any other operator requires a parenthesised argument. -/
def parse_unary_op : ℕ → List Token → Token → Except String (Expression × List Token)
  | 0, _, _ => Except.error fuelMsg
  | fuel + 1, ts, op =>
    match op with
    | Token.Minus =>
      match parse_factor fuel ts with
      | Except.error msg => Except.error msg
      | Except.ok (e, rest) => Except.ok (Expression.UnaryOp Token.Minus e, rest)
    | _ =>
      match ts with
      | Token.LeftParen :: rest =>
        match parse_expression fuel rest with
        | Except.error msg => Except.error msg
        | Except.ok (e, rest2) =>
          match rest2 with
          | Token.RightParen :: rest3 => Except.ok (Expression.UnaryOp op e, rest3)
          | _ => Except.error ("Expected right parenthese")
      | _ => Except.error ("Expected left parenthese")

/-- src/parser.rs `parse_binary_op` (lines 126-148): the exact call shape
`(` expression `,` expression `)` after the already-consumed function token. -/
def parse_binary_op : ℕ → List Token → Token → Except String (Expression × List Token)
  | 0, _, _ => Except.error fuelMsg
  | fuel + 1, ts, op =>
    match ts with
    | Token.LeftParen :: rest =>
      match parse_expression fuel rest with
      | Except.error msg => Except.error msg
      | Except.ok (left, rest2) =>
        match rest2 with
        | Token.Comma :: rest3 =>
          match parse_expression fuel rest3 with
          | Except.error msg => Except.error msg
          | Except.ok (right, rest4) =>
            match rest4 with
            | Token.RightParen :: rest5 =>
              Except.ok (Expression.BinaryOp left op right, rest5)
            | _ => Except.error ("Expected right parenthese")
        | _ => Except.error ("Expected comma")
    | _ => Except.error ("Expected left parenthese")

end

/-- src/parser.rs `parse` (lines 31-34): run `parse_expression` on the token
list and return only the expression.  The Rust function drops its local
iterator without checking that it is exhausted, so trailing unconsumed tokens
are silently discarded; the embedding mirrors that by dropping the second
component.  Every three nested parser calls consume at least one token, so
the fuel `8 * length + 8` strictly exceeds any reachable recursion depth. -/
def parse (tokens : List Token) : Except String Expression :=
  match parse_expression (8 * tokens.length + 8) tokens with
  | Except.ok (e, _) => Except.ok e
  | Except.error msg => Except.error msg

/-- src/evaluator.rs, `enum EvaluationError`. -/
inductive EvaluationError where
  | DivisionByZero
  | InvalidOperation
  deriving DecidableEq

/-- Modelled from the spec: the evaluator applies the Rust float library
functions `cos`, `acos`, `sin`, `asin`, `tan`, `atan`, `sqrt` and `powf`
(src/evaluator.rs lines 41 and 49-55), which live outside this repository.
Evaluation is parameterised over an arbitrary interpretation of them on the
rational value domain; theorems that need a fact about `powf` at integral
arguments state it as a hypothesis. -/
structure FloatOps where
  cos : ℚ → ℚ
  acos : ℚ → ℚ
  sin : ℚ → ℚ
  asin : ℚ → ℚ
  tan : ℚ → ℚ
  atan : ℚ → ℚ
  sqrt : ℚ → ℚ
  powf : ℚ → ℚ → ℚ

/-- src/evaluator.rs `evaluate` (lines 24-60): post-order recursive walk.
The divisor guard `right_val == 0.0` becomes `rightVal = 0`; on every value
the rational model produces this agrees with the IEEE comparison (in
particular a negated zero is the rational zero, exactly as `-0.0 == 0.0`
holds for `f64`). -/
def evaluate (ops : FloatOps) : Expression → Except EvaluationError ℚ
  | Expression.Number val => Except.ok val
  | Expression.BinaryOp left op right =>
    match evaluate ops left with
    | Except.error e => Except.error e
    | Except.ok leftVal =>
      match evaluate ops right with
      | Except.error e => Except.error e
      | Except.ok rightVal =>
        match op with
        | Token.Plus => Except.ok (leftVal + rightVal)
        | Token.Minus => Except.ok (leftVal - rightVal)
        | Token.Multiply => Except.ok (leftVal * rightVal)
        | Token.Divide =>
          if rightVal = 0 then Except.error EvaluationError.DivisionByZero
          else Except.ok (leftVal / rightVal)
        | Token.Pow => Except.ok (ops.powf leftVal rightVal)
        | _ => Except.error EvaluationError.InvalidOperation
  | Expression.UnaryOp op expr =>
    match evaluate ops expr with
    | Except.error e => Except.error e
    | Except.ok val =>
      match op with
      | Token.Minus => Except.ok (-val)
      | Token.Cos => Except.ok (ops.cos val)
      | Token.Acos => Except.ok (ops.acos val)
      | Token.Sin => Except.ok (ops.sin val)
      | Token.Asin => Except.ok (ops.asin val)
      | Token.Tan => Except.ok (ops.tan val)
      | Token.Atan => Except.ok (ops.atan val)
      | Token.Sqrt => Except.ok (ops.sqrt val)
      | _ => Except.error EvaluationError.InvalidOperation

/-- The pipeline as composed by src/main.rs (lines 57-80): tokenize, parse,
evaluate.  `none` models the process abort when the lexer panics;
`some (Except.error msg)` is a parse error; `some (Except.ok r)` hands the
evaluator's result (value or evaluation error) to the caller. -/
def run_pipeline (ops : FloatOps) (input : String) :
    Option (Except String (Except EvaluationError ℚ)) :=
  match tokenize input with
  | LexResult.ok tokens =>
    match parse tokens with
    | Except.ok ast => some (Except.ok (evaluate ops ast))
    | Except.error msg => some (Except.error msg)
  | _ => none

/-- Natural-number power on rationals by iterated multiplication; used only
to build the sample `FloatOps` interpretation below. -/
def ratNatPow (x : ℚ) : ℕ → ℚ
  | 0 => 1
  | n + 1 => x * ratNatPow x n

/-- A concrete interpretation of the float library operations, used only to
instantiate theorems that are quantified over `FloatOps`.  The transcendental
functions are interpreted as zero; `powf` is interpreted as iterated
multiplication on nonnegative integral exponents, which agrees with
`f64::powf` at the integral points the claims exercise. -/
def sampleOps : FloatOps where
  cos := fun _ => 0
  acos := fun _ => 0
  sin := fun _ => 0
  asin := fun _ => 0
  tan := fun _ => 0
  atan := fun _ => 0
  sqrt := fun _ => 0
  powf := fun x y => ratNatPow x y.num.toNat

/-- The operator tokens the grammar accepts for a binary node: `+`, `-`, `*`,
`/` from the expression and term loops, and `pow` from `parse_binary_op`. -/
def isBinaryOpToken : Token → Bool
  | Token.Plus | Token.Minus | Token.Multiply | Token.Divide | Token.Pow => true
  | _ => false

/-- The operator tokens the grammar accepts for a unary node: prefix `-` and
the seven named unary functions. -/
def isUnaryOpToken : Token → Bool
  | Token.Minus | Token.Cos | Token.Acos | Token.Sin | Token.Asin
  | Token.Tan | Token.Atan | Token.Sqrt => true
  | _ => false

/-- The tree invariant of spec section 3: every node's operator token is one
the grammar accepted for its arity. -/
def wellFormed : Expression → Bool
  | Expression.Number _ => true
  | Expression.BinaryOp l op r => isBinaryOpToken op && wellFormed l && wellFormed r
  | Expression.UnaryOp op e => isUnaryOpToken op && wellFormed e

/-- Unfolding lemma for a division node whose children evaluate cleanly. -/
lemma evaluate_divide_eq (ops : FloatOps) (l r : Expression) (lv rv : ℚ)
    (h1 : evaluate ops l = Except.ok lv) (h2 : evaluate ops r = Except.ok rv) :
    evaluate ops (Expression.BinaryOp l Token.Divide r) =
      if rv = 0 then Except.error EvaluationError.DivisionByZero
      else Except.ok (lv / rv) := by
  simp only [evaluate, h1, h2]

/-- Every parser function only builds trees whose operator tokens the grammar
accepted for that arity: mutual induction over the fuel, one conjunct per
function, with the loop conjuncts assuming the accumulated left tree is well
formed and the function-call conjuncts assuming the operator token passed in
was accepted for that arity. -/
lemma parser_wf (n : ℕ) :
    (∀ ts e rest, parse_expression n ts = Except.ok (e, rest) → wellFormed e = true) ∧
    (∀ left ts e rest, wellFormed left = true →
      parse_expression_loop n left ts = Except.ok (e, rest) → wellFormed e = true) ∧
    (∀ ts e rest, parse_term n ts = Except.ok (e, rest) → wellFormed e = true) ∧
    (∀ left ts e rest, wellFormed left = true →
      parse_term_loop n left ts = Except.ok (e, rest) → wellFormed e = true) ∧
    (∀ ts e rest, parse_factor n ts = Except.ok (e, rest) → wellFormed e = true) ∧
    (∀ ts op e rest, isUnaryOpToken op = true →
      parse_unary_op n ts op = Except.ok (e, rest) → wellFormed e = true) ∧
    (∀ ts op e rest, isBinaryOpToken op = true →
      parse_binary_op n ts op = Except.ok (e, rest) → wellFormed e = true) := by
  induction n with
  | zero =>
    refine ⟨?_, ?_, ?_, ?_, ?_, ?_, ?_⟩ <;> intros <;>
      simp_all [parse_expression, parse_expression_loop, parse_term, parse_term_loop,
        parse_factor, parse_unary_op, parse_binary_op]
  | succ n ih =>
    obtain ⟨ihE, ihEL, ihT, ihTL, ihF, ihU, ihB⟩ := ih
    refine ⟨?_, ?_, ?_, ?_, ?_, ?_, ?_⟩
    · intro ts e rest h
      simp only [parse_expression] at h
      cases hT : parse_term n ts with
      | error msg => rw [hT] at h; simp at h
      | ok p =>
        obtain ⟨left, rest1⟩ := p
        rw [hT] at h
        exact ihEL left rest1 e rest (ihT ts left rest1 hT) h
    · intro left ts e rest hwf h
      simp only [parse_expression_loop] at h
      split at h
      · rename_i rest1
        cases hT : parse_term n rest1 with
        | error msg => rw [hT] at h; simp at h
        | ok p =>
          obtain ⟨right, rest2⟩ := p
          rw [hT] at h
          refine ihEL _ rest2 e rest ?_ h
          simp [wellFormed, isBinaryOpToken, hwf, ihT rest1 right rest2 hT]
      · rename_i rest1
        cases hT : parse_term n rest1 with
        | error msg => rw [hT] at h; simp at h
        | ok p =>
          obtain ⟨right, rest2⟩ := p
          rw [hT] at h
          refine ihEL _ rest2 e rest ?_ h
          simp [wellFormed, isBinaryOpToken, hwf, ihT rest1 right rest2 hT]
      · simp only [Except.ok.injEq, Prod.mk.injEq] at h
        exact h.1 ▸ hwf
    · intro ts e rest h
      simp only [parse_term] at h
      cases hF : parse_factor n ts with
      | error msg => rw [hF] at h; simp at h
      | ok p =>
        obtain ⟨left, rest1⟩ := p
        rw [hF] at h
        exact ihTL left rest1 e rest (ihF ts left rest1 hF) h
    · intro left ts e rest hwf h
      simp only [parse_term_loop] at h
      split at h
      · rename_i rest1
        cases hF : parse_factor n rest1 with
        | error msg => rw [hF] at h; simp at h
        | ok p =>
          obtain ⟨right, rest2⟩ := p
          rw [hF] at h
          refine ihTL _ rest2 e rest ?_ h
          simp [wellFormed, isBinaryOpToken, hwf, ihF rest1 right rest2 hF]
      · rename_i rest1
        cases hF : parse_factor n rest1 with
        | error msg => rw [hF] at h; simp at h
        | ok p =>
          obtain ⟨right, rest2⟩ := p
          rw [hF] at h
          refine ihTL _ rest2 e rest ?_ h
          simp [wellFormed, isBinaryOpToken, hwf, ihF rest1 right rest2 hF]
      · simp only [Except.ok.injEq, Prod.mk.injEq] at h
        exact h.1 ▸ hwf
    · intro ts e rest h
      simp only [parse_factor] at h
      split at h
      · simp only [Except.ok.injEq, Prod.mk.injEq] at h
        exact h.1 ▸ (by simp [wellFormed])
      · rename_i rest1
        cases hF : parse_factor n rest1 with
        | error msg => rw [hF] at h; simp at h
        | ok p =>
          obtain ⟨e1, rest2⟩ := p
          rw [hF] at h
          simp only [Except.ok.injEq, Prod.mk.injEq] at h
          refine h.1 ▸ ?_
          simp [wellFormed, isUnaryOpToken, ihF rest1 e1 rest2 hF]
      · rename_i rest1
        cases hE : parse_expression n rest1 with
        | error msg => rw [hE] at h; simp at h
        | ok p =>
          obtain ⟨e1, rest2⟩ := p
          rw [hE] at h
          dsimp only at h
          split at h
          · simp only [Except.ok.injEq, Prod.mk.injEq] at h
            exact h.1 ▸ ihE rest1 e1 _ hE
          · simp at h
      · exact ihU _ _ e rest (by rfl) h
      · exact ihU _ _ e rest (by rfl) h
      · exact ihU _ _ e rest (by rfl) h
      · exact ihU _ _ e rest (by rfl) h
      · exact ihU _ _ e rest (by rfl) h
      · exact ihU _ _ e rest (by rfl) h
      · exact ihU _ _ e rest (by rfl) h
      · exact ihB _ _ e rest (by rfl) h
      · simp at h
      · simp at h
    · intro ts op e rest hop h
      simp only [parse_unary_op] at h
      split at h
      · cases hF : parse_factor n ts with
        | error msg => rw [hF] at h; simp at h
        | ok p =>
          obtain ⟨e1, rest1⟩ := p
          rw [hF] at h
          simp only [Except.ok.injEq, Prod.mk.injEq] at h
          refine h.1 ▸ ?_
          simp [wellFormed, isUnaryOpToken, ihF ts e1 rest1 hF]
      · split at h
        · rename_i rest1
          cases hE : parse_expression n rest1 with
          | error msg => rw [hE] at h; simp at h
          | ok p =>
            obtain ⟨e1, rest2⟩ := p
            rw [hE] at h
            dsimp only at h
            split at h
            · simp only [Except.ok.injEq, Prod.mk.injEq] at h
              refine h.1 ▸ ?_
              simp [wellFormed, hop, ihE rest1 e1 _ hE]
            · simp at h
        · simp at h
    · intro ts op e rest hop h
      simp only [parse_binary_op] at h
      split at h
      · rename_i rest1
        cases hE : parse_expression n rest1 with
        | error msg => rw [hE] at h; simp at h
        | ok p =>
          obtain ⟨e1, rest2⟩ := p
          rw [hE] at h
          dsimp only at h
          split at h
          · rename_i rest3
            cases hE2 : parse_expression n rest3 with
            | error msg => rw [hE2] at h; simp at h
            | ok p2 =>
              obtain ⟨e2, rest4⟩ := p2
              rw [hE2] at h
              dsimp only at h
              split at h
              · simp only [Except.ok.injEq, Prod.mk.injEq] at h
                refine h.1 ▸ ?_
                simp [wellFormed, hop, ihE rest1 e1 _ hE, ihE rest3 e2 _ hE2]
              · simp at h
          · simp at h
      · simp at h

/-- Trees returned by `parse` satisfy the operator/arity invariant. -/
lemma parse_wf (ts : List Token) (e : Expression) (h : parse ts = Except.ok e) :
    wellFormed e = true := by
  unfold parse at h
  cases hE : parse_expression (8 * ts.length + 8) ts with
  | error msg => rw [hE] at h; simp at h
  | ok p =>
    obtain ⟨e1, rest⟩ := p
    rw [hE] at h
    dsimp only at h
    cases h
    exact (parser_wf (8 * ts.length + 8)).1 ts _ rest hE

/-- On a well-formed tree the evaluator never reaches the `InvalidOperation`
fallback: every error it can produce is `DivisionByZero`. -/
lemma evaluate_no_invalid (ops : FloatOps) :
    ∀ e : Expression, wellFormed e = true →
      evaluate ops e ≠ Except.error EvaluationError.InvalidOperation := by
  intro e
  induction e with
  | Number v => intro _ h; simp [evaluate] at h
  | BinaryOp l op r ihl ihr =>
    intro hwf
    simp only [wellFormed, Bool.and_eq_true] at hwf
    obtain ⟨⟨hop, hl⟩, hr⟩ := hwf
    simp only [evaluate]
    cases hL : evaluate ops l with
    | error e1 =>
      intro hc
      dsimp only at hc
      injection hc with hc
      exact ihl hl (hc ▸ hL)
    | ok lv =>
      cases hR : evaluate ops r with
      | error e2 =>
        intro hc
        dsimp only at hc
        injection hc with hc
        exact ihr hr (hc ▸ hR)
      | ok rv =>
        cases op <;> simp [isBinaryOpToken] at hop <;> dsimp only <;> intro hc
        · injection hc
        · injection hc
        · injection hc
        · split at hc
          · injection hc with hc; exact absurd hc (by simp)
          · injection hc
        · injection hc
  | UnaryOp op e1 ih =>
    intro hwf
    simp only [wellFormed, Bool.and_eq_true] at hwf
    obtain ⟨hop, he⟩ := hwf
    simp only [evaluate]
    cases hV : evaluate ops e1 with
    | error er =>
      intro hc
      dsimp only at hc
      injection hc with hc
      exact ih he (hc ▸ hV)
    | ok v =>
      cases op <;> simp [isUnaryOpToken] at hop <;> dsimp only <;> intro hc <;> injection hc

/-- Claim C1, counterexample: on the tokens of "1 2" — a complete expression
followed by a trailing unconsumed token — `parse` does not fail with a
syntactic error: it succeeds, refuting the claim that trailing unconsumed
tokens are rejected. -/
theorem parse_trailing_tokens_cex :
    tokenize ("1 2") = LexResult.ok [Token.Number 1, Token.Number 2] ∧
    ¬ ∃ msg, parse [Token.Number 1, Token.Number 2] = Except.error msg := by
  refine ⟨by decide, ?_⟩
  rintro ⟨msg, hmsg⟩
  rw [show parse [Token.Number 1, Token.Number 2] =
    Except.ok (Expression.Number 1) from rfl] at hmsg
  exact absurd hmsg (by simp)

/-- Claim C1 (amended): `parse` does not require the token sequence to be
exhausted: on the tokens of "1 2" it succeeds with the leading literal 1 and
silently ignores the rest — the underlying `parse_expression` (at the fuel
`parse` uses for this list) returns the leading expression together with the
unconsumed trailing token, and `parse` discards that remainder. -/
theorem parse_ignores_trailing_tokens :
    parse [Token.Number 1, Token.Number 2] = Except.ok (Expression.Number 1) ∧
    parse_expression (8 * 2 + 8) [Token.Number 1, Token.Number 2] =
      Except.ok (Expression.Number 1, [Token.Number 2]) := ⟨rfl, rfl⟩

/-- Claim C2, counterexample: `tokenize` does not return a recoverable error
value on bad input — it aborts the process.  On "foo" the run ends in the
unknown-identifier panic and on "1 # 2" in the invalid-character panic
(the `panic…` constructors model the Rust process aborts). -/
theorem tokenize_panics_cex :
    tokenize ("foo") = LexResult.panicUnknownIdentifier ("foo") ∧
    tokenize ("1 # 2") = LexResult.panicInvalidCharacter ('#') := by decide

/-- Claim C2 (amended): `tokenize` aborts (panics) rather than returning an
error value: any character that is not a digit, one of the seven symbol
characters, a lowercase letter or a space panics with the invalid-character
abort carrying the offending character (stated for a single-character input),
and a lowercase alphabetic run matching none of the eight function names
panics with the unknown-identifier abort carrying the offending text, as on
"foo". -/
theorem tokenize_panics_on_bad_input :
    ∀ c : Char, c.isDigit = false → c ≠ '+' → c ≠ '-' → c ≠ '*' → c ≠ '/' →
      c ≠ '(' → c ≠ ')' → c ≠ ',' → c.isLower = false → c ≠ ' ' →
      tokenize (String.mk [c]) = LexResult.panicInvalidCharacter c ∧
      tokenize ("foo") = LexResult.panicUnknownIdentifier ("foo") ∧
      tokenize ("1 # 2") = LexResult.panicInvalidCharacter ('#') := by
  intro c h1 h2 h3 h4 h5 h6 h7 h8 h9 h10
  refine ⟨?_, by decide, by decide⟩
  show tokenizeGo (1 + 1) [c] [] = LexResult.panicInvalidCharacter c
  rw [tokenizeGo]
  simp [h1, h2, h3, h4, h5, h6, h7, h8, h9, h10]

/-- Claim C2 witness: the amended statement instantiated at the character
`#`. -/
theorem tokenize_panics_on_bad_input_witness :
    tokenize (String.mk ['#']) = LexResult.panicInvalidCharacter '#' ∧
    tokenize ("foo") = LexResult.panicUnknownIdentifier ("foo") ∧
    tokenize ("1 # 2") = LexResult.panicInvalidCharacter ('#') :=
  tokenize_panics_on_bad_input '#' (by decide) (by decide) (by decide) (by decide)
    (by decide) (by decide) (by decide) (by decide) (by decide) (by decide)

/-- Claim C3: a division node whose children evaluate cleanly errors with
`DivisionByZero` exactly when the right child's value is zero and otherwise
yields the quotient, and the pipeline run of "1 / (2 - 2)" produces the
`DivisionByZero` error — not an infinity or invalid value. -/
theorem divide_by_zero_iff (ops : FloatOps) (l r : Expression) (lv rv : ℚ)
    (h1 : evaluate ops l = Except.ok lv) (h2 : evaluate ops r = Except.ok rv) :
    evaluate ops (Expression.BinaryOp l Token.Divide r) =
      (if rv = 0 then Except.error EvaluationError.DivisionByZero
       else Except.ok (lv / rv)) ∧
    run_pipeline ops ("1 / (2 - 2)") =
      some (Except.ok (Except.error EvaluationError.DivisionByZero)) := by
  refine ⟨evaluate_divide_eq ops l r lv rv h1 h2, ?_⟩
  rw [show run_pipeline ops ("1 / (2 - 2)") = some (Except.ok (evaluate ops
      (Expression.BinaryOp (Expression.Number 1) Token.Divide
        (Expression.BinaryOp (Expression.Number 2) Token.Minus
          (Expression.Number 2))))) from rfl]
  have hr : evaluate ops (Expression.BinaryOp (Expression.Number 2) Token.Minus
      (Expression.Number 2)) = Except.ok 0 := by
    rw [show evaluate ops (Expression.BinaryOp (Expression.Number 2) Token.Minus
      (Expression.Number 2)) = Except.ok ((2 : ℚ) - 2) from rfl]
    norm_num
  rw [evaluate_divide_eq ops (Expression.Number 1)
    (Expression.BinaryOp (Expression.Number 2) Token.Minus (Expression.Number 2))
    1 0 rfl hr]
  simp

/-- Claim C3 witness: the divide behaviour instantiated at the literal
division node 1 / 0 under the sample interpretation. -/
theorem divide_by_zero_iff_witness :
    (evaluate sampleOps (Expression.BinaryOp (Expression.Number 1) Token.Divide
        (Expression.Number 0)) =
      (if (0 : ℚ) = 0 then Except.error EvaluationError.DivisionByZero
       else Except.ok (1 / 0))) ∧
    run_pipeline sampleOps ("1 / (2 - 2)") =
      some (Except.ok (Except.error EvaluationError.DivisionByZero)) :=
  divide_by_zero_iff sampleOps (Expression.Number 1) (Expression.Number 0) 1 0 rfl rfl

/-- Claim C4: every tree `parse` returns is well formed — each `BinaryOp`
operator is one of `+`, `-`, `*`, `/`, `pow` and each `UnaryOp` operator one
of `-`, `cos`, `acos`, `sin`, `asin`, `tan`, `atan`, `sqrt` — and
consequently evaluating a parser-produced tree never yields the
`InvalidOperation` error, under any interpretation of the float library. -/
theorem parse_wellformed_no_invalid_operation (ts : List Token) (e : Expression)
    (ops : FloatOps) (h : parse ts = Except.ok e) :
    wellFormed e = true ∧
    evaluate ops e ≠ Except.error EvaluationError.InvalidOperation := by
  have hwf := parse_wf ts e h
  exact ⟨hwf, evaluate_no_invalid ops e hwf⟩

/-- Claim C4 witness: instantiated at the token list of "1". -/
theorem parse_wellformed_no_invalid_operation_witness :
    wellFormed (Expression.Number 1) = true ∧
    evaluate sampleOps (Expression.Number 1) ≠
      Except.error EvaluationError.InvalidOperation :=
  parse_wellformed_no_invalid_operation [Token.Number 1] (Expression.Number 1)
    sampleOps rfl

/-- Claim C5: the binary plus/minus level parses left-associatively — for any
numeric literals a, b, c the tokens of "a - b - c" parse to the tree
(a - b) - c — and the pipeline evaluates "8 - 3 - 2" to 3, not 7. -/
theorem subtraction_left_associative (ops : FloatOps) (a b c : ℚ) :
    parse [Token.Number a, Token.Minus, Token.Number b, Token.Minus, Token.Number c] =
      Except.ok (Expression.BinaryOp
        (Expression.BinaryOp (Expression.Number a) Token.Minus (Expression.Number b))
        Token.Minus (Expression.Number c)) ∧
    run_pipeline ops ("8 - 3 - 2") = some (Except.ok (Except.ok 3)) := by
  refine ⟨rfl, ?_⟩
  rw [show run_pipeline ops ("8 - 3 - 2") =
    some (Except.ok (Except.ok ((8 : ℚ) - 3 - 2))) from rfl]
  norm_num

/-- Claim C5 witness: instantiated at the literals 8, 3, 2 and the sample
interpretation. -/
theorem subtraction_left_associative_witness :
    parse [Token.Number 8, Token.Minus, Token.Number 3, Token.Minus, Token.Number 2] =
      Except.ok (Expression.BinaryOp
        (Expression.BinaryOp (Expression.Number 8) Token.Minus (Expression.Number 3))
        Token.Minus (Expression.Number 2)) ∧
    run_pipeline sampleOps ("8 - 3 - 2") = some (Except.ok (Except.ok 3)) :=
  subtraction_left_associative sampleOps 8 3 2

/-- Claim C6: multiplication binds tighter than addition and a parenthesised
subexpression is one unit — for any literals a, b, c the tokens of
"a + b * c" parse with the product nested on the right, the tokens of
"(a + b) * c" parse with the sum nested on the left — and the pipeline
evaluates "2 + 3 * 4" to 14 and "(2 + 3) * 4" to 20. -/
theorem precedence_and_grouping (ops : FloatOps) (a b c : ℚ) :
    parse [Token.Number a, Token.Plus, Token.Number b, Token.Multiply, Token.Number c] =
      Except.ok (Expression.BinaryOp (Expression.Number a) Token.Plus
        (Expression.BinaryOp (Expression.Number b) Token.Multiply (Expression.Number c))) ∧
    parse [Token.LeftParen, Token.Number a, Token.Plus, Token.Number b,
        Token.RightParen, Token.Multiply, Token.Number c] =
      Except.ok (Expression.BinaryOp
        (Expression.BinaryOp (Expression.Number a) Token.Plus (Expression.Number b))
        Token.Multiply (Expression.Number c)) ∧
    run_pipeline ops ("2 + 3 * 4") = some (Except.ok (Except.ok 14)) ∧
    run_pipeline ops ("(2 + 3) * 4") = some (Except.ok (Except.ok 20)) := by
  refine ⟨rfl, rfl, ?_, ?_⟩
  · rw [show run_pipeline ops ("2 + 3 * 4") =
      some (Except.ok (Except.ok ((2 : ℚ) + 3 * 4))) from rfl]
    norm_num
  · rw [show run_pipeline ops ("(2 + 3) * 4") =
      some (Except.ok (Except.ok (((2 : ℚ) + 3) * 4))) from rfl]
    norm_num

/-- Claim C6 witness: instantiated at the literals 2, 3, 4 and the sample
interpretation. -/
theorem precedence_and_grouping_witness :
    parse [Token.Number 2, Token.Plus, Token.Number 3, Token.Multiply, Token.Number 4] =
      Except.ok (Expression.BinaryOp (Expression.Number 2) Token.Plus
        (Expression.BinaryOp (Expression.Number 3) Token.Multiply (Expression.Number 4))) ∧
    parse [Token.LeftParen, Token.Number 2, Token.Plus, Token.Number 3,
        Token.RightParen, Token.Multiply, Token.Number 4] =
      Except.ok (Expression.BinaryOp
        (Expression.BinaryOp (Expression.Number 2) Token.Plus (Expression.Number 3))
        Token.Multiply (Expression.Number 4)) ∧
    run_pipeline sampleOps ("2 + 3 * 4") = some (Except.ok (Except.ok 14)) ∧
    run_pipeline sampleOps ("(2 + 3) * 4") = some (Except.ok (Except.ok 20)) :=
  precedence_and_grouping sampleOps 2 3 4

/-- Claim C7: unary minus is a prefix operator parsed only inside `factor`,
binds tighter than `*` and `/`, and is right-recursive — the tokens of
"- - a" parse as negation of negation of a, the tokens of "- a * b" parse as
(-a) * b — and the pipeline evaluates "- - 3" to 3. -/
theorem unary_minus_right_recursion (ops : FloatOps) (a b : ℚ) :
    parse [Token.Minus, Token.Minus, Token.Number a] =
      Except.ok (Expression.UnaryOp Token.Minus
        (Expression.UnaryOp Token.Minus (Expression.Number a))) ∧
    parse [Token.Minus, Token.Number a, Token.Multiply, Token.Number b] =
      Except.ok (Expression.BinaryOp
        (Expression.UnaryOp Token.Minus (Expression.Number a))
        Token.Multiply (Expression.Number b)) ∧
    run_pipeline ops ("- - 3") = some (Except.ok (Except.ok 3)) := by
  refine ⟨rfl, rfl, ?_⟩
  rw [show run_pipeline ops ("- - 3") =
    some (Except.ok (Except.ok (-(-(3 : ℚ))))) from rfl]
  norm_num

/-- Claim C7 witness: instantiated at the literals 3 and 2 and the sample
interpretation. -/
theorem unary_minus_right_recursion_witness :
    parse [Token.Minus, Token.Minus, Token.Number 3] =
      Except.ok (Expression.UnaryOp Token.Minus
        (Expression.UnaryOp Token.Minus (Expression.Number 3))) ∧
    parse [Token.Minus, Token.Number 3, Token.Multiply, Token.Number 2] =
      Except.ok (Expression.BinaryOp
        (Expression.UnaryOp Token.Minus (Expression.Number 3))
        Token.Multiply (Expression.Number 2)) ∧
    run_pipeline sampleOps ("- - 3") = some (Except.ok (Except.ok 3)) :=
  unary_minus_right_recursion sampleOps 3 2

/-- Claim C8: `pow` is a two-argument function call, not an infix operator:
under any float interpretation whose `powf` sends (2, 10) to 1024 — as
`f64::powf` does — the pipeline evaluates "pow(2, 10)" to 1024, while
omitting the comma as in "pow(2 3)" tokenizes fine but fails to parse with
the "Expected comma" syntactic error. -/
theorem pow_function_call_form (ops : FloatOps) (hpow : ops.powf 2 10 = 1024) :
    run_pipeline ops ("pow(2, 10)") = some (Except.ok (Except.ok 1024)) ∧
    tokenize ("pow(2 3)") = LexResult.ok
      [Token.Pow, Token.LeftParen, Token.Number 2, Token.Number 3, Token.RightParen] ∧
    parse [Token.Pow, Token.LeftParen, Token.Number 2, Token.Number 3,
      Token.RightParen] = Except.error ("Expected comma") := by
  refine ⟨?_, by decide, rfl⟩
  rw [show run_pipeline ops ("pow(2, 10)") =
    some (Except.ok (Except.ok (ops.powf 2 10))) from rfl, hpow]

/-- Claim C8 witness: instantiated at the sample interpretation, whose `powf`
sends (2, 10) to 1024. -/
theorem pow_function_call_form_witness :
    run_pipeline sampleOps ("pow(2, 10)") = some (Except.ok (Except.ok 1024)) ∧
    tokenize ("pow(2 3)") = LexResult.ok
      [Token.Pow, Token.LeftParen, Token.Number 2, Token.Number 3, Token.RightParen] ∧
    parse [Token.Pow, Token.LeftParen, Token.Number 2, Token.Number 3,
      Token.RightParen] = Except.error ("Expected comma") :=
  pow_function_call_form sampleOps (by norm_num [sampleOps, ratNatPow])

/-- Claim C9: the empty token sequence and the truncated input "1 + (2 * 3"
both make `parse` return a syntactic error value — the empty sequence the
unexpected-end-of-input error and the truncated one the missing-parenthesis
error; being plain error values of the total `parse` function, neither run
panics or produces a default tree. -/
theorem empty_and_truncated_input_error :
    parse ([] : List Token) = Except.error ("Unexpected end of input") ∧
    tokenize ("1 + (2 * 3") = LexResult.ok [Token.Number 1, Token.Plus,
      Token.LeftParen, Token.Number 2, Token.Multiply, Token.Number 3] ∧
    parse [Token.Number 1, Token.Plus, Token.LeftParen, Token.Number 2,
      Token.Multiply, Token.Number 3] = Except.error ("Expected right parenthese") :=
  ⟨rfl, by decide, rfl⟩

/-- Claim C10: a negated-zero divisor trips the `DivisionByZero` guard: any
division node whose right child evaluates to zero errors with
`DivisionByZero` (given the left child evaluates cleanly), and the pipeline
run of "1 / (-0)" — whose divisor is the negation of the literal 0 —
produces the `DivisionByZero` error, not an infinity.  In this rational
model the negation of zero is zero itself, which matches the IEEE
comparison `-0.0 == 0.0` that the Rust guard performs on the `f64` negated
zero. -/
theorem negated_zero_divisor (ops : FloatOps) (l r : Expression) (lv : ℚ)
    (h1 : evaluate ops l = Except.ok lv) (h2 : evaluate ops r = Except.ok 0) :
    evaluate ops (Expression.BinaryOp l Token.Divide r) =
      Except.error EvaluationError.DivisionByZero ∧
    run_pipeline ops ("1 / (-0)") =
      some (Except.ok (Except.error EvaluationError.DivisionByZero)) := by
  constructor
  · rw [evaluate_divide_eq ops l r lv 0 h1 h2]
    simp
  · rw [show run_pipeline ops ("1 / (-0)") = some (Except.ok (evaluate ops
      (Expression.BinaryOp (Expression.Number 1) Token.Divide
        (Expression.UnaryOp Token.Minus (Expression.Number 0))))) from rfl]
    have hr : evaluate ops (Expression.UnaryOp Token.Minus (Expression.Number 0)) =
        Except.ok 0 := by
      rw [show evaluate ops (Expression.UnaryOp Token.Minus (Expression.Number 0)) =
        Except.ok (-(0 : ℚ)) from rfl]
      norm_num
    rw [evaluate_divide_eq ops (Expression.Number 1)
      (Expression.UnaryOp Token.Minus (Expression.Number 0)) 1 0 rfl hr]
    simp

/-- Claim C10 witness: instantiated at the division node of "1 / (-0)" under
the sample interpretation. -/
theorem negated_zero_divisor_witness :
    (evaluate sampleOps (Expression.BinaryOp (Expression.Number 1) Token.Divide
        (Expression.UnaryOp Token.Minus (Expression.Number 0))) =
      Except.error EvaluationError.DivisionByZero) ∧
    run_pipeline sampleOps ("1 / (-0)") =
      some (Except.ok (Except.error EvaluationError.DivisionByZero)) :=
  negated_zero_divisor sampleOps (Expression.Number 1)
    (Expression.UnaryOp Token.Minus (Expression.Number 0)) 1 rfl
    (by rw [show evaluate sampleOps (Expression.UnaryOp Token.Minus
      (Expression.Number 0)) = Except.ok (-(0 : ℚ)) from rfl]; norm_num)

end Calcrs
